import Mathlib

/-!
Verification of the gradient-volume core, a shallow embedding of
src/volume/gradient_volume.cpp.

Modelling conventions:
- C++ float arithmetic is modelled by real numbers; glm vectors become
  record types with real components; glm length is the Euclidean norm.
- The dense voxel vector becomes a Lean list in the same row-major order
  (x fastest, then y, then z).
- Reading the vector out of bounds, and dereferencing the end iterator
  returned by max_element or min_element on an empty range, are undefined
  behavior in C++; both are modelled by Option, with none for the
  undefined case.
- static_cast from float to int truncates toward zero; this is truncToInt
  below.
-/

set_option maxHeartbeats 1000000

/-- Real 3-component vector, modelling glm::vec3. -/
@[ext]
structure Vec3 where
  x : ℝ
  y : ℝ
  z : ℝ

/-- Real 2-component vector, modelling glm::vec2. -/
@[ext]
structure Vec2 where
  x : ℝ
  y : ℝ

/-- Integer 3-component vector, modelling glm::ivec3. -/
@[ext]
structure IVec3 where
  x : ℤ
  y : ℤ
  z : ℤ

instance : Add Vec3 := ⟨fun a b => ⟨a.x + b.x, a.y + b.y, a.z + b.z⟩⟩

instance : Sub Vec3 := ⟨fun a b => ⟨a.x - b.x, a.y - b.y, a.z - b.z⟩⟩

instance : HMul Vec3 ℝ Vec3 := ⟨fun v t => ⟨v.x * t, v.y * t, v.z * t⟩⟩

/-- Euclidean norm of a 3-vector, modelling glm::length. -/
noncomputable def vlen (v : Vec3) : ℝ :=
  Real.sqrt (v.x * v.x + v.y * v.y + v.z * v.z)

/-- One gradient voxel: a direction vector and a magnitude. -/
@[ext]
structure GradientVoxel where
  dir : Vec3
  magnitude : ℝ

/-- The default zero gradient voxel, also the out-of-range sentinel. -/
def zeroGradientVoxel : GradientVoxel := { dir := ⟨0, 0, 0⟩, magnitude := 0 }

/-- The external scalar volume: integer dimensions and a scalar sample
accessor by integer coordinate (the class is declared outside this file;
only dims and getVoxel are consumed here). -/
structure Volume where
  dimx : ℤ
  dimy : ℤ
  dimz : ℤ
  getVoxel : ℤ → ℤ → ℤ → ℝ

/-- Step of the max_element scan with the comparator
lhs.magnitude < rhs.magnitude: the running best is replaced exactly when
it compares strictly below the candidate, so the first maximum wins. -/
noncomputable def maxStep (acc h : GradientVoxel) : GradientVoxel :=
  if acc.magnitude < h.magnitude then h else acc

/-- Step of the min_element scan with the same comparator: the running
best is replaced exactly when the candidate compares strictly below it,
so the first minimum wins. -/
noncomputable def minStep (acc h : GradientVoxel) : GradientVoxel :=
  if h.magnitude < acc.magnitude then h else acc

/-- computeMaxMagnitude: magnitude of the element max_element finds.
On an empty range max_element returns the end iterator and the C++ code
dereferences it, which is undefined behavior, modelled by none. -/
noncomputable def computeMaxMagnitude : List GradientVoxel → Option ℝ
  | [] => none
  | g :: gs => some (gs.foldl maxStep g).magnitude

/-- computeMinMagnitude: magnitude of the element min_element finds.
On an empty range the C++ code dereferences the end iterator, which is
undefined behavior, modelled by none. -/
noncomputable def computeMinMagnitude : List GradientVoxel → Option ℝ
  | [] => none
  | g :: gs => some (gs.foldl minStep g).magnitude

/-- The central-difference gradient voxel written by the builder loop at
an interior voxel: componentwise central differences divided by two, with
magnitude the Euclidean norm of that vector. -/
noncomputable def gradientAt (vol : Volume) (x y z : ℤ) : GradientVoxel :=
  let gx := (vol.getVoxel (x + 1) y z - vol.getVoxel (x - 1) y z) / 2
  let gy := (vol.getVoxel x (y + 1) z - vol.getVoxel x (y - 1) z) / 2
  let gz := (vol.getVoxel x y (z + 1) - vol.getVoxel x y (z - 1)) / 2
  let v : Vec3 := ⟨gx, gy, gz⟩
  { dir := v, magnitude := vlen v }

/-- computeGradientVolume: the builder allocates dim.x * dim.y * dim.z
default-initialized voxels and then, for every strictly interior
coordinate (1 <= x < dim.x - 1 and likewise for y and z), writes the
central-difference voxel at row-major index x + dim.x * (y + dim.y * z).
Each cell of the row-major vector is therefore determined by the
coordinates recovered from its flat index: cell i holds the
central-difference voxel when (i mod dimx, (i / dimx) mod dimy,
i / (dimx * dimy)) is interior and the untouched default otherwise. -/
noncomputable def computeGradientVolume (vol : Volume) : List GradientVoxel :=
  (List.range (vol.dimx * vol.dimy * vol.dimz).toNat).map fun (i : ℕ) =>
    let x : ℤ := (i : ℤ) % vol.dimx
    let y : ℤ := ((i : ℤ) / vol.dimx) % vol.dimy
    let z : ℤ := (i : ℤ) / (vol.dimx * vol.dimy)
    if 1 ≤ x ∧ x < vol.dimx - 1 ∧ 1 ≤ y ∧ y < vol.dimy - 1 ∧ 1 ≤ z ∧ z < vol.dimz - 1 then
      gradientAt vol x y z
    else
      zeroGradientVoxel

/-- The interpolation mode enumeration. -/
inductive InterpolationMode where
  | NearestNeighbour
  | Linear
  | Cubic

/-- State of a GradientVolume object after construction. -/
structure GradientVolume where
  m_dim : IVec3
  m_data : List GradientVoxel
  m_minMagnitude : ℝ
  m_maxMagnitude : ℝ

/-- The GradientVolume constructor: copies the dimensions, computes the
gradient field, then scans it for the minimum and maximum magnitude.
When the scan is undefined (empty data, only possible for a degenerate
volume) the stored float is unspecified; getD 0 stands in for that
unspecified value. -/
noncomputable def GradientVolume.ofVolume (vol : Volume) : GradientVolume :=
  { m_dim := ⟨vol.dimx, vol.dimy, vol.dimz⟩
    m_data := computeGradientVolume vol
    m_minMagnitude := (computeMinMagnitude (computeGradientVolume vol)).getD 0
    m_maxMagnitude := (computeMaxMagnitude (computeGradientVolume vol)).getD 0 }

/-- Accessor maxMagnitude. -/
def GradientVolume.maxMagnitude (s : GradientVolume) : ℝ := s.m_maxMagnitude

/-- Accessor minMagnitude. -/
def GradientVolume.minMagnitude (s : GradientVolume) : ℝ := s.m_minMagnitude

/-- Accessor dims. -/
def GradientVolume.dims (s : GradientVolume) : IVec3 := s.m_dim

/-- getGradient: unchecked direct lookup at flat index
x + dim.x * (y + dim.y * z). The C++ code casts the int index to size_t
and indexes the vector with no bounds check: a negative index wraps to a
huge size_t and any index outside the vector is an out-of-bounds read,
undefined behavior, modelled by none. -/
noncomputable def GradientVolume.getGradient (s : GradientVolume) (x y z : ℤ) :
    Option GradientVoxel :=
  let i : ℤ := x + s.m_dim.x * (y + s.m_dim.y * z)
  if 0 ≤ i then s.m_data[i.toNat]? else none

/-- Truncation toward zero, modelling static_cast from float to int. -/
noncomputable def truncToInt (r : ℝ) : ℤ := if 0 ≤ r then ⌊r⌋ else ⌈r⌉

/-- The local roundToPositiveInt lambda: add one half, then cast to int. -/
noncomputable def roundToPositiveInt (f : ℝ) : ℤ := truncToInt (f + 0.5)

/-- getGradientNearestNeighbor: zero sentinel when any component of the
coordinate is below zero or at least the matching dimension, otherwise
an unchecked getGradient at the componentwise rounded coordinate. -/
noncomputable def GradientVolume.getGradientNearestNeighbor (s : GradientVolume)
    (coord : Vec3) : Option GradientVoxel :=
  if (coord.x < 0 ∨ coord.y < 0 ∨ coord.z < 0) ∨
      ((s.m_dim.x : ℝ) ≤ coord.x ∨ (s.m_dim.y : ℝ) ≤ coord.y ∨ (s.m_dim.z : ℝ) ≤ coord.z) then
    some zeroGradientVoxel
  else
    s.getGradient (roundToPositiveInt coord.x) (roundToPositiveInt coord.y)
      (roundToPositiveInt coord.z)

/-- linearInterpolate: blends the raw direction vectors and recomputes
the magnitude as the norm of the blended direction (the commented-out
magnitude-scaled variant in the source is not the active code). -/
noncomputable def linearInterpolate (g0 g1 : GradientVoxel) (factor : ℝ) :
    GradientVoxel :=
  let result : Vec3 := (g1.dir - g0.dir) * factor + g0.dir
  { dir := result, magnitude := vlen result }

/-- biLinearInterpolation: fetches the four integer corners floor/ceil of
the xy coordinate on slice z, blends bottom and top pairs along x with
factor a, then blends the two results along y with factor b. The corner
fetches are unchecked getGradient calls, so an out-of-bounds corner is
undefined behavior, propagated here through Option. -/
noncomputable def GradientVolume.biLinearInterpolation (s : GradientVolume)
    (xyCoord : Vec2) (z : ℤ) : Option GradientVoxel := do
  let bottomLeft ← s.getGradient ⌊xyCoord.x⌋ ⌊xyCoord.y⌋ z
  let bottomRight ← s.getGradient ⌈xyCoord.x⌉ ⌊xyCoord.y⌋ z
  let topLeft ← s.getGradient ⌊xyCoord.x⌋ ⌈xyCoord.y⌉ z
  let topRight ← s.getGradient ⌈xyCoord.x⌉ ⌈xyCoord.y⌉ z
  let a : ℝ := xyCoord.x - (⌊xyCoord.x⌋ : ℝ)
  let b : ℝ := xyCoord.y - (⌊xyCoord.y⌋ : ℝ)
  let c00 := linearInterpolate bottomLeft bottomRight a
  let c10 := linearInterpolate topLeft topRight a
  pure (linearInterpolate c00 c10 b)

/-- getGradientLinearInterpolate: zero sentinel when any component of
coord - 1 is below zero or any component of coord + 1 is at least the
matching dimension; otherwise two bilinear interpolations on the floor
and ceiling z slices blended along z by the fractional part of z. -/
noncomputable def GradientVolume.getGradientLinearInterpolate (s : GradientVolume)
    (coord : Vec3) : Option GradientVoxel :=
  if (coord.x - 1 < 0 ∨ coord.y - 1 < 0 ∨ coord.z - 1 < 0) ∨
      ((s.m_dim.x : ℝ) ≤ coord.x + 1 ∨ (s.m_dim.y : ℝ) ≤ coord.y + 1 ∨
        (s.m_dim.z : ℝ) ≤ coord.z + 1) then
    some zeroGradientVoxel
  else do
    let b0 ← s.biLinearInterpolation ⟨coord.x, coord.y⟩ ⌊coord.z⌋
    let b1 ← s.biLinearInterpolation ⟨coord.x, coord.y⟩ ⌈coord.z⌉
    pure (linearInterpolate b0 b1 (coord.z - (⌊coord.z⌋ : ℝ)))

/-- getGradientInterpolate: dispatch on the interpolation mode. The
Cubic arm of the switch calls the linear interpolation, and the enum has
no further values, so the throwing default arm is unreachable. -/
noncomputable def GradientVolume.getGradientInterpolate (s : GradientVolume)
    (mode : InterpolationMode) (coord : Vec3) : Option GradientVoxel :=
  match mode with
  | InterpolationMode.NearestNeighbour => s.getGradientNearestNeighbor coord
  | InterpolationMode.Linear => s.getGradientLinearInterpolate coord
  | InterpolationMode.Cubic => s.getGradientLinearInterpolate coord

/-- A concrete 3 by 3 by 3 volume with constant samples, used as a test
input. -/
noncomputable def constVolume3 : Volume :=
  { dimx := 3, dimy := 3, dimz := 3, getVoxel := fun _ _ _ => 0 }

/-- A concrete volume whose sample value equals the x coordinate, used
as a test input. -/
noncomputable def rampVolume3 : Volume :=
  { dimx := 3, dimy := 3, dimz := 3, getVoxel := fun x _ _ => (x : ℝ) }

/-- A concrete degenerate volume with zero voxels, used as a test
input. -/
noncomputable def emptyVolume : Volume :=
  { dimx := 0, dimy := 0, dimz := 0, getVoxel := fun _ _ _ => 0 }

@[simp]
theorem Vec3.add_x (a b : Vec3) : (a + b).x = a.x + b.x := rfl

@[simp]
theorem Vec3.add_y (a b : Vec3) : (a + b).y = a.y + b.y := rfl

@[simp]
theorem Vec3.add_z (a b : Vec3) : (a + b).z = a.z + b.z := rfl

@[simp]
theorem Vec3.sub_x (a b : Vec3) : (a - b).x = a.x - b.x := rfl

@[simp]
theorem Vec3.sub_y (a b : Vec3) : (a - b).y = a.y - b.y := rfl

@[simp]
theorem Vec3.sub_z (a b : Vec3) : (a - b).z = a.z - b.z := rfl

@[simp]
theorem Vec3.smul_x (a : Vec3) (t : ℝ) : (a * t).x = a.x * t := rfl

@[simp]
theorem Vec3.smul_y (a : Vec3) (t : ℝ) : (a * t).y = a.y * t := rfl

@[simp]
theorem Vec3.smul_z (a : Vec3) (t : ℝ) : (a * t).z = a.z * t := rfl

theorem vlen_zero : vlen ⟨0, 0, 0⟩ = 0 := by
  simp [vlen]

theorem zeroGradientVoxel_norm : zeroGradientVoxel.magnitude = vlen zeroGradientVoxel.dir := by
  simp [zeroGradientVoxel, vlen_zero]

theorem gradientAt_norm (vol : Volume) (x y z : ℤ) :
    (gradientAt vol x y z).magnitude = vlen (gradientAt vol x y z).dir := rfl

theorem linearInterpolate_def (g0 g1 : GradientVoxel) (t : ℝ) :
    linearInterpolate g0 g1 t =
      ⟨(g1.dir - g0.dir) * t + g0.dir, vlen ((g1.dir - g0.dir) * t + g0.dir)⟩ := rfl

theorem linearInterpolate_norm (g0 g1 : GradientVoxel) (t : ℝ) :
    (linearInterpolate g0 g1 t).magnitude = vlen (linearInterpolate g0 g1 t).dir := rfl

theorem linearInterpolate_zero (g0 g1 : GradientVoxel)
    (h : g0.magnitude = vlen g0.dir) : linearInterpolate g0 g1 0 = g0 := by
  have hdir : (g1.dir - g0.dir) * (0 : ℝ) + g0.dir = g0.dir := by
    ext <;> simp
  rw [linearInterpolate_def, hdir, ← h]

theorem linearInterpolate_one (g0 g1 : GradientVoxel)
    (h : g1.magnitude = vlen g1.dir) : linearInterpolate g0 g1 1 = g1 := by
  have hdir : (g1.dir - g0.dir) * (1 : ℝ) + g0.dir = g1.dir := by
    ext <;> simp
  rw [linearInterpolate_def, hdir, ← h]

theorem linearInterpolate_self (g : GradientVoxel) (t : ℝ)
    (h : g.magnitude = vlen g.dir) : linearInterpolate g g t = g := by
  have hdir : (g.dir - g.dir) * t + g.dir = g.dir := by
    ext <;> simp
  rw [linearInterpolate_def, hdir, ← h]

theorem flatIndex_nonneg {dx dy : ℤ} {x y z : ℤ} (hx0 : 0 ≤ x) (hy0 : 0 ≤ y)
    (hz0 : 0 ≤ z) (hdx : 0 ≤ dx) (hdy : 0 ≤ dy) :
    0 ≤ x + dx * (y + dy * z) :=
  add_nonneg hx0 (mul_nonneg hdx (add_nonneg hy0 (mul_nonneg hdy hz0)))

theorem flatIndex_lt {dx dy dz : ℤ} {x y z : ℤ} (hx0 : 0 ≤ x) (hx1 : x < dx)
    (hy0 : 0 ≤ y) (hy1 : y < dy) (hz0 : 0 ≤ z) (hz1 : z < dz) :
    x + dx * (y + dy * z) < dx * dy * dz := by
  have hdy0 : (0 : ℤ) ≤ dy := by omega
  have hdx0 : (0 : ℤ) ≤ dx := by omega
  have h1 : dy * z ≤ dy * (dz - 1) := mul_le_mul_of_nonneg_left (by omega) hdy0
  have h2 : y + dy * z ≤ dy * dz - 1 := by
    have : dy * (dz - 1) = dy * dz - dy := by ring
    omega
  have h3 : dx * (y + dy * z) ≤ dx * (dy * dz - 1) :=
    mul_le_mul_of_nonneg_left h2 hdx0
  have h4 : dx * (dy * dz - 1) = dx * dy * dz - dx := by ring
  omega

theorem computeGradientVolume_length (vol : Volume) :
    (computeGradientVolume vol).length = (vol.dimx * vol.dimy * vol.dimz).toNat := by
  unfold computeGradientVolume
  rw [List.length_map, List.length_range]

theorem computeGradientVolume_get (vol : Volume) (x y z : ℤ)
    (hx0 : 0 ≤ x) (hx1 : x < vol.dimx) (hy0 : 0 ≤ y) (hy1 : y < vol.dimy)
    (hz0 : 0 ≤ z) (hz1 : z < vol.dimz) :
    (computeGradientVolume vol)[(x + vol.dimx * (y + vol.dimy * z)).toNat]? =
      some (if 1 ≤ x ∧ x < vol.dimx - 1 ∧ 1 ≤ y ∧ y < vol.dimy - 1 ∧ 1 ≤ z ∧ z < vol.dimz - 1
            then gradientAt vol x y z else zeroGradientVoxel) := by
  have hi0 : 0 ≤ x + vol.dimx * (y + vol.dimy * z) :=
    flatIndex_nonneg hx0 hy0 hz0 (by omega) (by omega)
  have hi1 : x + vol.dimx * (y + vol.dimy * z) < vol.dimx * vol.dimy * vol.dimz :=
    flatIndex_lt hx0 hx1 hy0 hy1 hz0 hz1
  have hiN : (x + vol.dimx * (y + vol.dimy * z)).toNat <
      (vol.dimx * vol.dimy * vol.dimz).toNat := by omega
  have hcast : (((x + vol.dimx * (y + vol.dimy * z)).toNat : ℤ)) =
      x + vol.dimx * (y + vol.dimy * z) := Int.toNat_of_nonneg hi0
  have hmodx : (x + vol.dimx * (y + vol.dimy * z)) % vol.dimx = x := by
    rw [Int.add_mul_emod_self_left, Int.emod_eq_of_lt hx0 hx1]
  have hdivx : (x + vol.dimx * (y + vol.dimy * z)) / vol.dimx = y + vol.dimy * z := by
    rw [Int.add_mul_ediv_left _ _ (by omega : vol.dimx ≠ 0),
      Int.ediv_eq_zero_of_lt hx0 hx1, zero_add]
  have hmody : (y + vol.dimy * z) % vol.dimy = y := by
    rw [Int.add_mul_emod_self_left, Int.emod_eq_of_lt hy0 hy1]
  have hdivy : (y + vol.dimy * z) / vol.dimy = z := by
    rw [Int.add_mul_ediv_left _ _ (by omega : vol.dimy ≠ 0),
      Int.ediv_eq_zero_of_lt hy0 hy1, zero_add]
  have hxy0 : 0 ≤ x + vol.dimx * y :=
    add_nonneg hx0 (mul_nonneg (by omega) hy0)
  have hxy1 : x + vol.dimx * y < vol.dimx * vol.dimy := by
    have h1 : vol.dimx * y ≤ vol.dimx * (vol.dimy - 1) :=
      mul_le_mul_of_nonneg_left (by omega) (by omega)
    have h2 : vol.dimx * (vol.dimy - 1) = vol.dimx * vol.dimy - vol.dimx := by ring
    omega
  have hdivz : (x + vol.dimx * (y + vol.dimy * z)) / (vol.dimx * vol.dimy) = z := by
    have hrw : x + vol.dimx * (y + vol.dimy * z) =
        (x + vol.dimx * y) + vol.dimx * vol.dimy * z := by ring
    rw [hrw, Int.add_mul_ediv_left _ _ (mul_ne_zero (by omega) (by omega)),
      Int.ediv_eq_zero_of_lt hxy0 hxy1, zero_add]
  unfold computeGradientVolume
  rw [List.getElem?_map, List.getElem?_range hiN]
  simp only [Option.map_some, Option.map_some']
  rw [hcast, hmodx, hdivx, hmody, hdivz]

theorem computeGradientVolume_mem (vol : Volume) (g : GradientVoxel)
    (hg : g ∈ computeGradientVolume vol) : g.magnitude = vlen g.dir := by
  unfold computeGradientVolume at hg
  rw [List.mem_map] at hg
  obtain ⟨i, _, hi⟩ := hg
  simp only at hi
  split at hi
  · rw [← hi]
    exact gradientAt_norm vol _ _ _
  · rw [← hi]
    exact zeroGradientVoxel_norm

theorem minStep_le_left (acc h : GradientVoxel) :
    (minStep acc h).magnitude ≤ acc.magnitude := by
  by_cases hc : h.magnitude < acc.magnitude
  · simp only [minStep, if_pos hc]
    linarith
  · simp only [minStep, if_neg hc]
    exact le_rfl

theorem minStep_le_right (acc h : GradientVoxel) :
    (minStep acc h).magnitude ≤ h.magnitude := by
  by_cases hc : h.magnitude < acc.magnitude
  · simp only [minStep, if_pos hc]
    exact le_rfl
  · simp only [minStep, if_neg hc]
    exact not_lt.mp hc

theorem minStep_eq_or (acc h : GradientVoxel) :
    minStep acc h = acc ∨ minStep acc h = h := by
  unfold minStep
  split
  · exact Or.inr rfl
  · exact Or.inl rfl

theorem maxStep_ge_left (acc h : GradientVoxel) :
    acc.magnitude ≤ (maxStep acc h).magnitude := by
  by_cases hc : acc.magnitude < h.magnitude
  · simp only [maxStep, if_pos hc]
    linarith
  · simp only [maxStep, if_neg hc]
    exact le_rfl

theorem maxStep_ge_right (acc h : GradientVoxel) :
    h.magnitude ≤ (maxStep acc h).magnitude := by
  by_cases hc : acc.magnitude < h.magnitude
  · simp only [maxStep, if_pos hc]
    exact le_rfl
  · simp only [maxStep, if_neg hc]
    exact not_lt.mp hc

theorem maxStep_eq_or (acc h : GradientVoxel) :
    maxStep acc h = acc ∨ maxStep acc h = h := by
  unfold maxStep
  split
  · exact Or.inr rfl
  · exact Or.inl rfl

theorem foldl_minStep_mem (g : GradientVoxel) (gs : List GradientVoxel) :
    gs.foldl minStep g ∈ g :: gs := by
  induction gs generalizing g with
  | nil => simp
  | cons h t ih =>
    rw [List.foldl_cons]
    rcases minStep_eq_or g h with he | he <;> rw [he]
    · have hmem := ih g
      simp only [List.mem_cons] at hmem ⊢
      tauto
    · have hmem := ih h
      simp only [List.mem_cons] at hmem ⊢
      tauto

theorem foldl_maxStep_mem (g : GradientVoxel) (gs : List GradientVoxel) :
    gs.foldl maxStep g ∈ g :: gs := by
  induction gs generalizing g with
  | nil => simp
  | cons h t ih =>
    rw [List.foldl_cons]
    rcases maxStep_eq_or g h with he | he <;> rw [he]
    · have hmem := ih g
      simp only [List.mem_cons] at hmem ⊢
      tauto
    · have hmem := ih h
      simp only [List.mem_cons] at hmem ⊢
      tauto

theorem foldl_minStep_le (g : GradientVoxel) (gs : List GradientVoxel) :
    ∀ e ∈ g :: gs, (gs.foldl minStep g).magnitude ≤ e.magnitude := by
  induction gs generalizing g with
  | nil =>
    intro e he
    rw [List.mem_singleton] at he
    rw [List.foldl_nil, he]
  | cons h t ih =>
    intro e he
    rw [List.foldl_cons]
    have hhead := ih (minStep g h) (minStep g h) (List.mem_cons_self _ _)
    rcases List.mem_cons.mp he with rfl | he2
    · exact le_trans hhead (minStep_le_left e h)
    · rcases List.mem_cons.mp he2 with rfl | he3
      · exact le_trans hhead (minStep_le_right g e)
      · exact ih (minStep g h) e (List.mem_cons_of_mem _ he3)

theorem foldl_maxStep_ge (g : GradientVoxel) (gs : List GradientVoxel) :
    ∀ e ∈ g :: gs, e.magnitude ≤ (gs.foldl maxStep g).magnitude := by
  induction gs generalizing g with
  | nil =>
    intro e he
    rw [List.mem_singleton] at he
    rw [List.foldl_nil, he]
  | cons h t ih =>
    intro e he
    rw [List.foldl_cons]
    have hhead := ih (maxStep g h) (maxStep g h) (List.mem_cons_self _ _)
    rcases List.mem_cons.mp he with rfl | he2
    · exact le_trans (maxStep_ge_left e h) hhead
    · rcases List.mem_cons.mp he2 with rfl | he3
      · exact le_trans (maxStep_ge_right g e) hhead
      · exact ih (maxStep g h) e (List.mem_cons_of_mem _ he3)

theorem computeMinMagnitude_cons (g : GradientVoxel) (gs : List GradientVoxel) :
    computeMinMagnitude (g :: gs) = some (gs.foldl minStep g).magnitude := rfl

theorem computeMaxMagnitude_cons (g : GradientVoxel) (gs : List GradientVoxel) :
    computeMaxMagnitude (g :: gs) = some (gs.foldl maxStep g).magnitude := rfl

theorem ofVolume_m_dim (vol : Volume) :
    (GradientVolume.ofVolume vol).m_dim = ⟨vol.dimx, vol.dimy, vol.dimz⟩ := rfl

theorem ofVolume_m_data (vol : Volume) :
    (GradientVolume.ofVolume vol).m_data = computeGradientVolume vol := rfl

theorem getGradient_def (s : GradientVolume) (x y z : ℤ) :
    s.getGradient x y z =
      if 0 ≤ x + s.m_dim.x * (y + s.m_dim.y * z) then
        s.m_data[(x + s.m_dim.x * (y + s.m_dim.y * z)).toNat]?
      else none := rfl

theorem ofVolume_getGradient (vol : Volume) (x y z : ℤ)
    (hx0 : 0 ≤ x) (hx1 : x < vol.dimx) (hy0 : 0 ≤ y) (hy1 : y < vol.dimy)
    (hz0 : 0 ≤ z) (hz1 : z < vol.dimz) :
    (GradientVolume.ofVolume vol).getGradient x y z =
      some (if 1 ≤ x ∧ x < vol.dimx - 1 ∧ 1 ≤ y ∧ y < vol.dimy - 1 ∧ 1 ≤ z ∧ z < vol.dimz - 1
            then gradientAt vol x y z else zeroGradientVoxel) := by
  have hi0 : 0 ≤ x + vol.dimx * (y + vol.dimy * z) :=
    flatIndex_nonneg hx0 hy0 hz0 (by omega) (by omega)
  rw [getGradient_def, ofVolume_m_dim, ofVolume_m_data]
  simp only
  rw [if_pos hi0]
  exact computeGradientVolume_get vol x y z hx0 hx1 hy0 hy1 hz0 hz1

theorem getGradient_mem (s : GradientVolume) (x y z : ℤ) (g : GradientVoxel)
    (h : s.getGradient x y z = some g) : g ∈ s.m_data := by
  rw [getGradient_def] at h
  split at h
  · exact List.getElem?_mem h
  · cases h

theorem roundToPositiveInt_nonneg (f : ℝ) (hf : 0 ≤ f) :
    roundToPositiveInt f = ⌊f + 0.5⌋ := by
  unfold roundToPositiveInt truncToInt
  rw [if_pos (by linarith : (0 : ℝ) ≤ f + 0.5)]

theorem biLinearInterpolation_eq (s : GradientVolume) (xyCoord : Vec2) (z : ℤ)
    (bl br tl tr : GradientVoxel)
    (hbl : s.getGradient ⌊xyCoord.x⌋ ⌊xyCoord.y⌋ z = some bl)
    (hbr : s.getGradient ⌈xyCoord.x⌉ ⌊xyCoord.y⌋ z = some br)
    (htl : s.getGradient ⌊xyCoord.x⌋ ⌈xyCoord.y⌉ z = some tl)
    (htr : s.getGradient ⌈xyCoord.x⌉ ⌈xyCoord.y⌉ z = some tr) :
    s.biLinearInterpolation xyCoord z =
      some (linearInterpolate
        (linearInterpolate bl br (xyCoord.x - (⌊xyCoord.x⌋ : ℝ)))
        (linearInterpolate tl tr (xyCoord.x - (⌊xyCoord.x⌋ : ℝ)))
        (xyCoord.y - (⌊xyCoord.y⌋ : ℝ))) := by
  unfold GradientVolume.biLinearInterpolation
  rw [hbl, hbr, htl, htr]
  rfl

theorem getGradientLinearInterpolate_eq (s : GradientVolume) (coord : Vec3)
    (b0 b1 : GradientVoxel)
    (hguard : ¬ ((coord.x - 1 < 0 ∨ coord.y - 1 < 0 ∨ coord.z - 1 < 0) ∨
      ((s.m_dim.x : ℝ) ≤ coord.x + 1 ∨ (s.m_dim.y : ℝ) ≤ coord.y + 1 ∨
        (s.m_dim.z : ℝ) ≤ coord.z + 1)))
    (hb0 : s.biLinearInterpolation ⟨coord.x, coord.y⟩ ⌊coord.z⌋ = some b0)
    (hb1 : s.biLinearInterpolation ⟨coord.x, coord.y⟩ ⌈coord.z⌉ = some b1) :
    s.getGradientLinearInterpolate coord =
      some (linearInterpolate b0 b1 (coord.z - (⌊coord.z⌋ : ℝ))) := by
  unfold GradientVolume.getGradientLinearInterpolate
  rw [if_neg hguard, hb0, hb1]
  rfl

theorem getGradientLinearInterpolate_guard (s : GradientVolume) (coord : Vec3)
    (hguard : (coord.x - 1 < 0 ∨ coord.y - 1 < 0 ∨ coord.z - 1 < 0) ∨
      ((s.m_dim.x : ℝ) ≤ coord.x + 1 ∨ (s.m_dim.y : ℝ) ≤ coord.y + 1 ∨
        (s.m_dim.z : ℝ) ≤ coord.z + 1)) :
    s.getGradientLinearInterpolate coord = some zeroGradientVoxel := by
  unfold GradientVolume.getGradientLinearInterpolate
  rw [if_pos hguard]

/-- C2: the claim quantifies over all pairs of GradientVoxel values, but
linearInterpolate recomputes the output magnitude as the norm of the
blended direction; a first argument whose stored magnitude is not the
norm of its direction is not returned intact at factor 0. With g0 having
direction zero but magnitude 5, the result at factor 0 has magnitude 0,
not 5. -/
theorem claim_C2_counterexample :
    linearInterpolate { dir := ⟨0, 0, 0⟩, magnitude := 5 } zeroGradientVoxel 0 ≠
      { dir := ⟨0, 0, 0⟩, magnitude := 5 } := by
  intro h
  have hm : (linearInterpolate { dir := ⟨0, 0, 0⟩, magnitude := 5 }
      zeroGradientVoxel 0).magnitude = 5 := by rw [h]
  rw [linearInterpolate_def] at hm
  simp only [zeroGradientVoxel, vlen, Vec3.sub_x, Vec3.sub_y, Vec3.sub_z,
    Vec3.smul_x, Vec3.smul_y, Vec3.smul_z, Vec3.add_x, Vec3.add_y, Vec3.add_z] at hm
  norm_num at hm

/-- C2 (amended): for every pair of GradientVoxel values whose stored
magnitude equals the Euclidean norm of their direction (as holds for all
voxels this core constructs), linearInterpolate at factor 0 returns
exactly the first argument and at factor 1 exactly the second. -/
theorem claim_C2_identity (g0 g1 : GradientVoxel)
    (h0 : g0.magnitude = vlen g0.dir) (h1 : g1.magnitude = vlen g1.dir) :
    linearInterpolate g0 g1 0 = g0 ∧ linearInterpolate g0 g1 1 = g1 :=
  ⟨linearInterpolate_zero g0 g1 h0, linearInterpolate_one g0 g1 h1⟩

/-- C2 witness: the identity laws instantiated at the zero voxel. -/
theorem claim_C2_identity_witness :
    linearInterpolate zeroGradientVoxel zeroGradientVoxel 0 = zeroGradientVoxel ∧
    linearInterpolate zeroGradientVoxel zeroGradientVoxel 1 = zeroGradientVoxel :=
  claim_C2_identity zeroGradientVoxel zeroGradientVoxel
    (by simp [zeroGradientVoxel, vlen]) (by simp [zeroGradientVoxel, vlen])

/-- C8 counterexample: for a volume with zero total voxels the gradient
array is empty and both scans have no defined result (the C++ code
dereferences the end iterator, undefined behavior), so construction does
not define an explicit non-crashing behavior for the empty array. -/
theorem claim_C8_counterexample :
    computeGradientVolume emptyVolume = [] ∧
    computeMinMagnitude (computeGradientVolume emptyVolume) = none ∧
    computeMaxMagnitude (computeGradientVolume emptyVolume) = none := by
  have h : computeGradientVolume emptyVolume = [] := by
    simp [computeGradientVolume, emptyVolume]
  refine ⟨h, ?_, ?_⟩ <;> rw [h] <;> rfl

/-- C8 (amended): the min and max magnitude scans are well-defined on
every nonempty gradient array; only the zero-voxel case is undefined. -/
theorem claim_C8_nonempty_scan (data : List GradientVoxel) (h : data ≠ []) :
    (computeMinMagnitude data).isSome ∧ (computeMaxMagnitude data).isSome := by
  obtain ⟨g, gs, rfl⟩ := List.exists_cons_of_ne_nil h
  exact ⟨rfl, rfl⟩

/-- C8 witness: the scans are defined on a concrete one-element array. -/
theorem claim_C8_nonempty_scan_witness :
    (computeMinMagnitude [zeroGradientVoxel]).isSome ∧
    (computeMaxMagnitude [zeroGradientVoxel]).isSome :=
  claim_C8_nonempty_scan [zeroGradientVoxel] (by simp)

/-- C9: on every state and every coordinate, Cubic mode dispatches to the
same linear interpolation call as Linear mode, so the two modes return
identical results. -/
theorem claim_C9_cubic_eq_linear (s : GradientVolume) (coord : Vec3) :
    s.getGradientInterpolate InterpolationMode.Cubic coord =
      s.getGradientInterpolate InterpolationMode.Linear coord := rfl

theorem ofVolume_minMagnitude (vol : Volume) :
    (GradientVolume.ofVolume vol).minMagnitude =
      (computeMinMagnitude (computeGradientVolume vol)).getD 0 := rfl

theorem ofVolume_maxMagnitude (vol : Volume) :
    (GradientVolume.ofVolume vol).maxMagnitude =
      (computeMaxMagnitude (computeGradientVolume vol)).getD 0 := rfl

/-- C1: for every volume with all dimensions at least 1 and every
in-range voxel coordinate, the constructed gradient array holds, at the
row-major index of that coordinate, the central-difference voxel (whose
magnitude is the Euclidean norm of its direction) when the coordinate is
strictly interior on all three axes, and the default zero voxel at every
other cell, including all boundary layers and every cell of a volume
with an empty interior on some axis. -/
theorem claim_C1_gradient_field (vol : Volume)
    (hdx : 1 ≤ vol.dimx) (hdy : 1 ≤ vol.dimy) (hdz : 1 ≤ vol.dimz)
    (x y z : ℤ) (hx0 : 0 ≤ x) (hx1 : x < vol.dimx) (hy0 : 0 ≤ y) (hy1 : y < vol.dimy)
    (hz0 : 0 ≤ z) (hz1 : z < vol.dimz) :
    (computeGradientVolume vol)[(x + vol.dimx * (y + vol.dimy * z)).toNat]? =
      some (if 1 ≤ x ∧ x ≤ vol.dimx - 2 ∧ 1 ≤ y ∧ y ≤ vol.dimy - 2 ∧ 1 ≤ z ∧ z ≤ vol.dimz - 2
        then { dir := ⟨(vol.getVoxel (x + 1) y z - vol.getVoxel (x - 1) y z) / 2,
                       (vol.getVoxel x (y + 1) z - vol.getVoxel x (y - 1) z) / 2,
                       (vol.getVoxel x y (z + 1) - vol.getVoxel x y (z - 1)) / 2⟩,
               magnitude := vlen ⟨(vol.getVoxel (x + 1) y z - vol.getVoxel (x - 1) y z) / 2,
                       (vol.getVoxel x (y + 1) z - vol.getVoxel x (y - 1) z) / 2,
                       (vol.getVoxel x y (z + 1) - vol.getVoxel x y (z - 1)) / 2⟩ }
        else { dir := ⟨0, 0, 0⟩, magnitude := 0 }) := by
  rw [computeGradientVolume_get vol x y z hx0 hx1 hy0 hy1 hz0 hz1]
  congr 1
  have hiff : (1 ≤ x ∧ x < vol.dimx - 1 ∧ 1 ≤ y ∧ y < vol.dimy - 1 ∧
      1 ≤ z ∧ z < vol.dimz - 1) ↔
      (1 ≤ x ∧ x ≤ vol.dimx - 2 ∧ 1 ≤ y ∧ y ≤ vol.dimy - 2 ∧ 1 ≤ z ∧ z ≤ vol.dimz - 2) := by
    omega
  exact if_congr hiff rfl rfl

/-- C1 witness: the claim instantiated on a concrete 3x3x3 ramp volume
at the interior voxel (1,1,1). -/
theorem claim_C1_witness :
    (computeGradientVolume rampVolume3)[((1 : ℤ) +
        rampVolume3.dimx * (1 + rampVolume3.dimy * 1)).toNat]? =
      some (if (1 : ℤ) ≤ 1 ∧ (1 : ℤ) ≤ rampVolume3.dimx - 2 ∧ (1 : ℤ) ≤ 1 ∧
              (1 : ℤ) ≤ rampVolume3.dimy - 2 ∧ (1 : ℤ) ≤ 1 ∧ (1 : ℤ) ≤ rampVolume3.dimz - 2
        then { dir := ⟨(rampVolume3.getVoxel (1 + 1) 1 1 - rampVolume3.getVoxel (1 - 1) 1 1) / 2,
                       (rampVolume3.getVoxel 1 (1 + 1) 1 - rampVolume3.getVoxel 1 (1 - 1) 1) / 2,
                       (rampVolume3.getVoxel 1 1 (1 + 1) - rampVolume3.getVoxel 1 1 (1 - 1)) / 2⟩,
               magnitude := vlen ⟨(rampVolume3.getVoxel (1 + 1) 1 1 - rampVolume3.getVoxel (1 - 1) 1 1) / 2,
                       (rampVolume3.getVoxel 1 (1 + 1) 1 - rampVolume3.getVoxel 1 (1 - 1) 1) / 2,
                       (rampVolume3.getVoxel 1 1 (1 + 1) - rampVolume3.getVoxel 1 1 (1 - 1)) / 2⟩ }
        else { dir := ⟨0, 0, 0⟩, magnitude := 0 }) :=
  claim_C1_gradient_field rampVolume3 (by norm_num [rampVolume3]) (by norm_num [rampVolume3])
    (by norm_num [rampVolume3]) 1 1 1 (by norm_num) (by norm_num [rampVolume3])
    (by norm_num) (by norm_num [rampVolume3]) (by norm_num) (by norm_num [rampVolume3])

/-- C6: in NearestNeighbour mode, a coordinate with any component below
zero or at least the matching dimension yields the zero voxel, and any
other coordinate yields getGradient at the componentwise round-half-up
(floor of the component plus one half) coordinate. -/
theorem claim_C6_nearest (s : GradientVolume) (coord : Vec3) :
    (((coord.x < 0 ∨ coord.y < 0 ∨ coord.z < 0) ∨
        ((s.m_dim.x : ℝ) ≤ coord.x ∨ (s.m_dim.y : ℝ) ≤ coord.y ∨ (s.m_dim.z : ℝ) ≤ coord.z)) →
      s.getGradientInterpolate InterpolationMode.NearestNeighbour coord =
        some zeroGradientVoxel) ∧
    (¬ ((coord.x < 0 ∨ coord.y < 0 ∨ coord.z < 0) ∨
        ((s.m_dim.x : ℝ) ≤ coord.x ∨ (s.m_dim.y : ℝ) ≤ coord.y ∨ (s.m_dim.z : ℝ) ≤ coord.z)) →
      s.getGradientInterpolate InterpolationMode.NearestNeighbour coord =
        s.getGradient ⌊coord.x + 0.5⌋ ⌊coord.y + 0.5⌋ ⌊coord.z + 0.5⌋) := by
  constructor
  · intro h
    show s.getGradientNearestNeighbor coord = some zeroGradientVoxel
    unfold GradientVolume.getGradientNearestNeighbor
    rw [if_pos h]
  · intro h
    show s.getGradientNearestNeighbor coord = _
    unfold GradientVolume.getGradientNearestNeighbor
    rw [if_neg h]
    push_neg at h
    obtain ⟨⟨hx, hy, hz⟩, -⟩ := h
    rw [roundToPositiveInt_nonneg coord.x hx, roundToPositiveInt_nonneg coord.y hy,
      roundToPositiveInt_nonneg coord.z hz]

/-- C6 witness: the in-range arm instantiated on a concrete state at the
coordinate (1,1,1). -/
theorem claim_C6_witness :
    (GradientVolume.ofVolume constVolume3).getGradientInterpolate
        InterpolationMode.NearestNeighbour ⟨1, 1, 1⟩ =
      (GradientVolume.ofVolume constVolume3).getGradient
        ⌊(1 : ℝ) + 0.5⌋ ⌊(1 : ℝ) + 0.5⌋ ⌊(1 : ℝ) + 0.5⌋ :=
  (claim_C6_nearest (GradientVolume.ofVolume constVolume3) ⟨1, 1, 1⟩).2 (by
    simp only [ofVolume_m_dim]
    norm_num [constVolume3])

/-- C4: after construction from a volume with at least one voxel, every
stored magnitude lies between minMagnitude and maxMagnitude, and both
extrema are magnitudes of elements present in the array. -/
theorem claim_C4_minmax_bounds (vol : Volume)
    (hdx : 1 ≤ vol.dimx) (hdy : 1 ≤ vol.dimy) (hdz : 1 ≤ vol.dimz) :
    (∀ g ∈ (GradientVolume.ofVolume vol).m_data,
        (GradientVolume.ofVolume vol).minMagnitude ≤ g.magnitude ∧
        g.magnitude ≤ (GradientVolume.ofVolume vol).maxMagnitude) ∧
    (∃ g ∈ (GradientVolume.ofVolume vol).m_data,
        g.magnitude = (GradientVolume.ofVolume vol).minMagnitude) ∧
    (∃ g ∈ (GradientVolume.ofVolume vol).m_data,
        g.magnitude = (GradientVolume.ofVolume vol).maxMagnitude) := by
  have hne : computeGradientVolume vol ≠ [] := by
    have hlen := computeGradientVolume_length vol
    intro hempty
    rw [hempty] at hlen
    have hpos : 0 < vol.dimx * vol.dimy * vol.dimz :=
      mul_pos (mul_pos (by omega) (by omega)) (by omega)
    simp only [List.length_nil] at hlen
    omega
  obtain ⟨g, gs, hcons⟩ := List.exists_cons_of_ne_nil hne
  have hdata : (GradientVolume.ofVolume vol).m_data = g :: gs := by
    rw [ofVolume_m_data, hcons]
  have hmin : (GradientVolume.ofVolume vol).minMagnitude = (gs.foldl minStep g).magnitude := by
    rw [ofVolume_minMagnitude, hcons, computeMinMagnitude_cons, Option.getD_some]
  have hmax : (GradientVolume.ofVolume vol).maxMagnitude = (gs.foldl maxStep g).magnitude := by
    rw [ofVolume_maxMagnitude, hcons, computeMaxMagnitude_cons, Option.getD_some]
  rw [hdata, hmin, hmax]
  exact ⟨fun e he => ⟨foldl_minStep_le g gs e he, foldl_maxStep_ge g gs e he⟩,
    ⟨gs.foldl minStep g, foldl_minStep_mem g gs, rfl⟩,
    ⟨gs.foldl maxStep g, foldl_maxStep_mem g gs, rfl⟩⟩

/-- C4 witness: the bounds instantiated on a concrete 3x3x3 volume. -/
theorem claim_C4_witness :
    (∀ g ∈ (GradientVolume.ofVolume constVolume3).m_data,
        (GradientVolume.ofVolume constVolume3).minMagnitude ≤ g.magnitude ∧
        g.magnitude ≤ (GradientVolume.ofVolume constVolume3).maxMagnitude) ∧
    (∃ g ∈ (GradientVolume.ofVolume constVolume3).m_data,
        g.magnitude = (GradientVolume.ofVolume constVolume3).minMagnitude) ∧
    (∃ g ∈ (GradientVolume.ofVolume constVolume3).m_data,
        g.magnitude = (GradientVolume.ofVolume constVolume3).maxMagnitude) :=
  claim_C4_minmax_bounds constVolume3 (by norm_num [constVolume3])
    (by norm_num [constVolume3]) (by norm_num [constVolume3])

/-- C3: refuted. The nearest-neighbour query at the coordinate
(2.5, 2.5, 2.5) of a 3x3x3 volume has every component at least 0 and
strictly below the matching dimension, so it passes the range guard, yet
each component rounds to floor(2.5 + 0.5) = 3, which is not a valid
voxel coordinate: the flat index is 39 while the array has 27 elements,
an out-of-bounds vector read (undefined behavior, modelled as none).
This refutes the claim that every in-range coordinate is delegated to an
in-bounds array index. -/
theorem claim_C3_bug :
    (GradientVolume.ofVolume constVolume3).getGradientNearestNeighbor
      ⟨2.5, 2.5, 2.5⟩ = none := by
  have hround : roundToPositiveInt (2.5 : ℝ) = 3 := by
    rw [roundToPositiveInt_nonneg _ (by norm_num)]
    rw [show (2.5 : ℝ) + 0.5 = ((3 : ℤ) : ℝ) by norm_num]
    exact Int.floor_intCast 3
  have hne : ¬ ((((⟨2.5, 2.5, 2.5⟩ : Vec3).x < 0 ∨ (⟨2.5, 2.5, 2.5⟩ : Vec3).y < 0 ∨
      (⟨2.5, 2.5, 2.5⟩ : Vec3).z < 0) ∨
      (((GradientVolume.ofVolume constVolume3).m_dim.x : ℝ) ≤ (⟨2.5, 2.5, 2.5⟩ : Vec3).x ∨
       ((GradientVolume.ofVolume constVolume3).m_dim.y : ℝ) ≤ (⟨2.5, 2.5, 2.5⟩ : Vec3).y ∨
       ((GradientVolume.ofVolume constVolume3).m_dim.z : ℝ) ≤ (⟨2.5, 2.5, 2.5⟩ : Vec3).z))) := by
    simp only [ofVolume_m_dim]
    norm_num [constVolume3]
  unfold GradientVolume.getGradientNearestNeighbor
  rw [if_neg hne]
  show (GradientVolume.ofVolume constVolume3).getGradient (roundToPositiveInt 2.5)
    (roundToPositiveInt 2.5) (roundToPositiveInt 2.5) = none
  rw [hround, getGradient_def]
  have hidx : ((3 : ℤ) + (GradientVolume.ofVolume constVolume3).m_dim.x *
      (3 + (GradientVolume.ofVolume constVolume3).m_dim.y * 3)) = 39 := by
    simp only [ofVolume_m_dim]
    norm_num [constVolume3]
  rw [hidx, if_pos (by norm_num : (0 : ℤ) ≤ 39)]
  rw [ofVolume_m_data]
  apply List.getElem?_eq_none
  rw [computeGradientVolume_length]
  norm_num [constVolume3]

theorem corner_bounds {r : ℝ} {d : ℤ} (h1 : 0 ≤ r - 1) (h2 : r + 1 < (d : ℝ)) :
    0 ≤ ⌊r⌋ ∧ ⌊r⌋ < d ∧ 0 ≤ ⌈r⌉ ∧ ⌈r⌉ < d := by
  have hr1 : (1 : ℝ) ≤ r := by linarith
  have hfl : 1 ≤ ⌊r⌋ := by
    rw [Int.le_floor]
    exact_mod_cast hr1
  have hcl : ⌈r⌉ < d := by
    have hc1 : (⌈r⌉ : ℝ) < r + 1 := Int.ceil_lt_add_one r
    have hc2 : (⌈r⌉ : ℝ) < (d : ℝ) := by linarith
    exact_mod_cast hc2
  have hfc : ⌊r⌋ ≤ ⌈r⌉ := Int.floor_le_ceil r
  exact ⟨by omega, by omega, by omega, hcl⟩

/-- C7: in Linear mode, a coordinate with any component of coord - 1
below zero or any component of coord + 1 at least the matching dimension
yields the zero voxel; for any other coordinate the margin guarantees
that all eight floor/ceil lattice corners used by the trilinear
interpolation are in-bounds lookups, and the query produces a defined
result. -/
theorem claim_C7_margin (vol : Volume) (coord : Vec3) :
    (((coord.x - 1 < 0 ∨ coord.y - 1 < 0 ∨ coord.z - 1 < 0) ∨
        ((vol.dimx : ℝ) ≤ coord.x + 1 ∨ (vol.dimy : ℝ) ≤ coord.y + 1 ∨
          (vol.dimz : ℝ) ≤ coord.z + 1)) →
      (GradientVolume.ofVolume vol).getGradientLinearInterpolate coord =
        some zeroGradientVoxel) ∧
    (¬ ((coord.x - 1 < 0 ∨ coord.y - 1 < 0 ∨ coord.z - 1 < 0) ∨
        ((vol.dimx : ℝ) ≤ coord.x + 1 ∨ (vol.dimy : ℝ) ≤ coord.y + 1 ∨
          (vol.dimz : ℝ) ≤ coord.z + 1)) →
      (∀ a b c : ℤ, (a = ⌊coord.x⌋ ∨ a = ⌈coord.x⌉) → (b = ⌊coord.y⌋ ∨ b = ⌈coord.y⌉) →
          (c = ⌊coord.z⌋ ∨ c = ⌈coord.z⌉) →
          ((GradientVolume.ofVolume vol).getGradient a b c).isSome) ∧
      ((GradientVolume.ofVolume vol).getGradientLinearInterpolate coord).isSome) := by
  constructor
  · intro h
    exact getGradientLinearInterpolate_guard (GradientVolume.ofVolume vol) coord h
  · intro h
    have hguard := h
    push_neg at h
    obtain ⟨⟨hx1, hy1, hz1⟩, hx2, hy2, hz2⟩ := h
    have hbx := corner_bounds hx1 hx2
    have hby := corner_bounds hy1 hy2
    have hbz := corner_bounds hz1 hz2
    have hcorner : ∀ a b c : ℤ, (a = ⌊coord.x⌋ ∨ a = ⌈coord.x⌉) →
        (b = ⌊coord.y⌋ ∨ b = ⌈coord.y⌉) → (c = ⌊coord.z⌋ ∨ c = ⌈coord.z⌉) →
        ((GradientVolume.ofVolume vol).getGradient a b c).isSome := by
      intro a b c ha hb hc
      have hab : 0 ≤ a ∧ a < vol.dimx := by
        rcases ha with rfl | rfl
        · exact ⟨hbx.1, hbx.2.1⟩
        · exact ⟨hbx.2.2.1, hbx.2.2.2⟩
      have hbb : 0 ≤ b ∧ b < vol.dimy := by
        rcases hb with rfl | rfl
        · exact ⟨hby.1, hby.2.1⟩
        · exact ⟨hby.2.2.1, hby.2.2.2⟩
      have hcc : 0 ≤ c ∧ c < vol.dimz := by
        rcases hc with rfl | rfl
        · exact ⟨hbz.1, hbz.2.1⟩
        · exact ⟨hbz.2.2.1, hbz.2.2.2⟩
      rw [ofVolume_getGradient vol a b c hab.1 hab.2 hbb.1 hbb.2 hcc.1 hcc.2]
      rfl
    refine ⟨hcorner, ?_⟩
    obtain ⟨bl0, hbl0⟩ := Option.isSome_iff_exists.mp
      (hcorner ⌊coord.x⌋ ⌊coord.y⌋ ⌊coord.z⌋ (Or.inl rfl) (Or.inl rfl) (Or.inl rfl))
    obtain ⟨br0, hbr0⟩ := Option.isSome_iff_exists.mp
      (hcorner ⌈coord.x⌉ ⌊coord.y⌋ ⌊coord.z⌋ (Or.inr rfl) (Or.inl rfl) (Or.inl rfl))
    obtain ⟨tl0, htl0⟩ := Option.isSome_iff_exists.mp
      (hcorner ⌊coord.x⌋ ⌈coord.y⌉ ⌊coord.z⌋ (Or.inl rfl) (Or.inr rfl) (Or.inl rfl))
    obtain ⟨tr0, htr0⟩ := Option.isSome_iff_exists.mp
      (hcorner ⌈coord.x⌉ ⌈coord.y⌉ ⌊coord.z⌋ (Or.inr rfl) (Or.inr rfl) (Or.inl rfl))
    obtain ⟨bl1, hbl1⟩ := Option.isSome_iff_exists.mp
      (hcorner ⌊coord.x⌋ ⌊coord.y⌋ ⌈coord.z⌉ (Or.inl rfl) (Or.inl rfl) (Or.inr rfl))
    obtain ⟨br1, hbr1⟩ := Option.isSome_iff_exists.mp
      (hcorner ⌈coord.x⌉ ⌊coord.y⌋ ⌈coord.z⌉ (Or.inr rfl) (Or.inl rfl) (Or.inr rfl))
    obtain ⟨tl1, htl1⟩ := Option.isSome_iff_exists.mp
      (hcorner ⌊coord.x⌋ ⌈coord.y⌉ ⌈coord.z⌉ (Or.inl rfl) (Or.inr rfl) (Or.inr rfl))
    obtain ⟨tr1, htr1⟩ := Option.isSome_iff_exists.mp
      (hcorner ⌈coord.x⌉ ⌈coord.y⌉ ⌈coord.z⌉ (Or.inr rfl) (Or.inr rfl) (Or.inr rfl))
    have hb0 := biLinearInterpolation_eq (GradientVolume.ofVolume vol)
      ⟨coord.x, coord.y⟩ ⌊coord.z⌋ bl0 br0 tl0 tr0 hbl0 hbr0 htl0 htr0
    have hb1 := biLinearInterpolation_eq (GradientVolume.ofVolume vol)
      ⟨coord.x, coord.y⟩ ⌈coord.z⌉ bl1 br1 tl1 tr1 hbl1 hbr1 htl1 htr1
    rw [getGradientLinearInterpolate_eq (GradientVolume.ofVolume vol) coord _ _ hguard hb0 hb1]
    rfl

/-- C7 witness: the margin arm instantiated on a concrete 3x3x3 volume
at the coordinate (1,1,1). -/
theorem claim_C7_witness :
    (∀ a b c : ℤ, (a = ⌊(1 : ℝ)⌋ ∨ a = ⌈(1 : ℝ)⌉) → (b = ⌊(1 : ℝ)⌋ ∨ b = ⌈(1 : ℝ)⌉) →
        (c = ⌊(1 : ℝ)⌋ ∨ c = ⌈(1 : ℝ)⌉) →
        ((GradientVolume.ofVolume constVolume3).getGradient a b c).isSome) ∧
    ((GradientVolume.ofVolume constVolume3).getGradientLinearInterpolate
        ⟨1, 1, 1⟩).isSome :=
  (claim_C7_margin constVolume3 ⟨1, 1, 1⟩).2 (by norm_num [constVolume3])

/-- C5: on the state built by the constructor, a trilinear query at an
exact integer lattice coordinate strictly inside the safe margin
collapses every blend to factor 0 between identical corners and returns
exactly the stored voxel, equal to getGradient at that coordinate. -/
theorem claim_C5_passthrough (vol : Volume) (cx cy cz : ℤ)
    (hx : 1 ≤ cx ∧ cx + 1 < vol.dimx) (hy : 1 ≤ cy ∧ cy + 1 < vol.dimy)
    (hz : 1 ≤ cz ∧ cz + 1 < vol.dimz) :
    (GradientVolume.ofVolume vol).getGradientLinearInterpolate
        ⟨(cx : ℝ), (cy : ℝ), (cz : ℝ)⟩ =
      (GradientVolume.ofVolume vol).getGradient cx cy cz := by
  have hint : 1 ≤ cx ∧ cx < vol.dimx - 1 ∧ 1 ≤ cy ∧ cy < vol.dimy - 1 ∧
      1 ≤ cz ∧ cz < vol.dimz - 1 := by omega
  have hg : (GradientVolume.ofVolume vol).getGradient cx cy cz =
      some (gradientAt vol cx cy cz) := by
    rw [ofVolume_getGradient vol cx cy cz (by omega) (by omega) (by omega) (by omega)
      (by omega) (by omega), if_pos hint]
  have hcr : ∀ a b c : ℤ, a = cx → b = cy → c = cz →
      (GradientVolume.ofVolume vol).getGradient a b c =
        some (gradientAt vol cx cy cz) := by
    intro a b c ha hb hc
    rw [ha, hb, hc]
    exact hg
  have hself : ∀ t : ℝ, linearInterpolate (gradientAt vol cx cy cz)
      (gradientAt vol cx cy cz) t = gradientAt vol cx cy cz :=
    fun t => linearInterpolate_self _ t (gradientAt_norm vol cx cy cz)
  have hb0 := biLinearInterpolation_eq (GradientVolume.ofVolume vol)
    ⟨(cx : ℝ), (cy : ℝ)⟩ ⌊((cz : ℤ) : ℝ)⌋
    (gradientAt vol cx cy cz) (gradientAt vol cx cy cz)
    (gradientAt vol cx cy cz) (gradientAt vol cx cy cz)
    (hcr _ _ _ (Int.floor_intCast cx) (Int.floor_intCast cy) (Int.floor_intCast cz))
    (hcr _ _ _ (Int.ceil_intCast cx) (Int.floor_intCast cy) (Int.floor_intCast cz))
    (hcr _ _ _ (Int.floor_intCast cx) (Int.ceil_intCast cy) (Int.floor_intCast cz))
    (hcr _ _ _ (Int.ceil_intCast cx) (Int.ceil_intCast cy) (Int.floor_intCast cz))
  have hb1 := biLinearInterpolation_eq (GradientVolume.ofVolume vol)
    ⟨(cx : ℝ), (cy : ℝ)⟩ ⌈((cz : ℤ) : ℝ)⌉
    (gradientAt vol cx cy cz) (gradientAt vol cx cy cz)
    (gradientAt vol cx cy cz) (gradientAt vol cx cy cz)
    (hcr _ _ _ (Int.floor_intCast cx) (Int.floor_intCast cy) (Int.ceil_intCast cz))
    (hcr _ _ _ (Int.ceil_intCast cx) (Int.floor_intCast cy) (Int.ceil_intCast cz))
    (hcr _ _ _ (Int.floor_intCast cx) (Int.ceil_intCast cy) (Int.ceil_intCast cz))
    (hcr _ _ _ (Int.ceil_intCast cx) (Int.ceil_intCast cy) (Int.ceil_intCast cz))
  have hguard : ¬ ((((cx : ℝ) - 1 < 0 ∨ (cy : ℝ) - 1 < 0 ∨ (cz : ℝ) - 1 < 0) ∨
      ((vol.dimx : ℝ) ≤ (cx : ℝ) + 1 ∨ (vol.dimy : ℝ) ≤ (cy : ℝ) + 1 ∨
        (vol.dimz : ℝ) ≤ (cz : ℝ) + 1))) := by
    push_neg
    refine ⟨⟨?_, ?_, ?_⟩, ?_, ?_, ?_⟩
    · have h1 : (1 : ℝ) ≤ (cx : ℝ) := by exact_mod_cast hx.1
      linarith
    · have h1 : (1 : ℝ) ≤ (cy : ℝ) := by exact_mod_cast hy.1
      linarith
    · have h1 : (1 : ℝ) ≤ (cz : ℝ) := by exact_mod_cast hz.1
      linarith
    · exact_mod_cast hx.2
    · exact_mod_cast hy.2
    · exact_mod_cast hz.2
  rw [getGradientLinearInterpolate_eq (GradientVolume.ofVolume vol)
    ⟨(cx : ℝ), (cy : ℝ), (cz : ℝ)⟩ _ _ hguard hb0 hb1]
  simp only [Int.floor_intCast, Int.ceil_intCast, sub_self, hself]
  rw [hg]

/-- C5 witness: pass-through instantiated on a concrete ramp volume at
the lattice coordinate (1,1,1). -/
theorem claim_C5_witness :
    (GradientVolume.ofVolume rampVolume3).getGradientLinearInterpolate
        ⟨((1 : ℤ) : ℝ), ((1 : ℤ) : ℝ), ((1 : ℤ) : ℝ)⟩ =
      (GradientVolume.ofVolume rampVolume3).getGradient 1 1 1 :=
  claim_C5_passthrough rampVolume3 1 1 1 (by norm_num [rampVolume3])
    (by norm_num [rampVolume3]) (by norm_num [rampVolume3])

theorem getGradientNearestNeighbor_norm (vol : Volume) (coord : Vec3) (g : GradientVoxel)
    (h : (GradientVolume.ofVolume vol).getGradientNearestNeighbor coord = some g) :
    g.magnitude = vlen g.dir := by
  unfold GradientVolume.getGradientNearestNeighbor at h
  split at h
  · injection h with h
    subst h
    exact zeroGradientVoxel_norm
  · have hmem := getGradient_mem _ _ _ _ _ h
    rw [ofVolume_m_data] at hmem
    exact computeGradientVolume_mem vol g hmem

theorem getGradientLinearInterpolate_norm_out (s : GradientVolume) (coord : Vec3)
    (g : GradientVoxel) (h : s.getGradientLinearInterpolate coord = some g) :
    g.magnitude = vlen g.dir := by
  unfold GradientVolume.getGradientLinearInterpolate at h
  split at h
  · injection h with h
    subst h
    exact zeroGradientVoxel_norm
  · cases hb0 : s.biLinearInterpolation ⟨coord.x, coord.y⟩ ⌊coord.z⌋ with
    | none =>
      rw [hb0] at h
      simp at h
    | some b0 =>
      rw [hb0] at h
      cases hb1 : s.biLinearInterpolation ⟨coord.x, coord.y⟩ ⌈coord.z⌉ with
      | none =>
        rw [hb1] at h
        simp at h
      | some b1 =>
        rw [hb1] at h
        have h2 : some (linearInterpolate b0 b1 (coord.z - (⌊coord.z⌋ : ℝ))) = some g := h
        have hg : linearInterpolate b0 b1 (coord.z - (⌊coord.z⌋ : ℝ)) = g := by
          injection h2
        rw [← hg]
        exact linearInterpolate_norm b0 b1 _

/-- C10: on a constructed gradient volume, every voxel returned by the
interpolating query, in any mode and on any coordinate, has magnitude
equal to the Euclidean norm of its direction: stored voxels satisfy the
invariant at construction, the out-of-range sentinel is the zero voxel,
and every blend step recomputes magnitude from the blended direction. -/
theorem claim_C10_norm_invariant (vol : Volume) (mode : InterpolationMode)
    (coord : Vec3) (g : GradientVoxel)
    (h : (GradientVolume.ofVolume vol).getGradientInterpolate mode coord = some g) :
    g.magnitude = vlen g.dir := by
  cases mode with
  | NearestNeighbour => exact getGradientNearestNeighbor_norm vol coord g h
  | Linear => exact getGradientLinearInterpolate_norm_out _ coord g h
  | Cubic => exact getGradientLinearInterpolate_norm_out _ coord g h

/-- C10 witness: the invariant on the voxel returned by a concrete
out-of-range nearest-neighbour query. -/
theorem claim_C10_witness : zeroGradientVoxel.magnitude = vlen zeroGradientVoxel.dir :=
  claim_C10_norm_invariant constVolume3 InterpolationMode.NearestNeighbour ⟨-1, 0, 0⟩
    zeroGradientVoxel (by
      show (GradientVolume.ofVolume constVolume3).getGradientNearestNeighbor ⟨-1, 0, 0⟩ =
        some zeroGradientVoxel
      unfold GradientVolume.getGradientNearestNeighbor
      exact if_pos (Or.inl (Or.inl (by norm_num : (-1 : ℝ) < 0))))
